import Mathlib

/-!
Shallow embedding of the `listings` app of the alx_travel_app repository
(models.py, serializers.py, views.py, permissions.py).

Conventions of the embedding:
* a Django `DateField` value is represented by its day number (`Int`), the
  image of the calendar date under `Date.toDays` below; Python date
  comparison and subtraction (`(d2 - d1).days`) become `Int` comparison and
  subtraction of day numbers;
* `DecimalField` values (`price_per_night`, `total_price`) are represented
  by `Rat` (Python `Decimal` arithmetic here is one exact product);
* users are represented by their primary key (`Nat`);
* a serializer that raises `ValidationError` is a function into
  `Except String _`, the string being the error message;
* a DRF action body returning `Response(...)` is a function into
  `ActionResult` (`ok` = 200 with the saved object, `clientError` = 400,
  `forbidden` = 403).
-/

/-- The four values of `Booking.STATUS_CHOICES` in models.py. -/
inductive BStatus where
  | pending
  | confirmed
  | cancelled
  | completed
deriving DecidableEq, Repr

/-- The stored string of a status, as interpolated by
`f'Booking is already {booking.status}'` in views.py. -/
def BStatus.toStr : BStatus → String
  | .pending => "pending"
  | .confirmed => "confirmed"
  | .cancelled => "cancelled"
  | .completed => "completed"

/-- A calendar date, as Python's `datetime.date` (year, month, day). -/
structure Date where
  year : Nat
  month : Nat
  day : Nat
deriving DecidableEq, Repr

/-- Gregorian leap-year test, as implemented by Python's calendar. -/
def isLeap (y : Nat) : Bool :=
  (y % 4 == 0 && y % 100 != 0) || (y % 400 == 0)

/-- Number of days in a month of a given year. -/
def daysInMonth (y m : Nat) : Nat :=
  if m = 2 then (if isLeap y then 29 else 28)
  else if m = 4 ∨ m = 6 ∨ m = 9 ∨ m = 11 then 30
  else 31

/-- `current_date += datetime.timedelta(days=1)` on a calendar date. -/
def Date.nextDay (d : Date) : Date :=
  if d.day < daysInMonth d.year d.month then ⟨d.year, d.month, d.day + 1⟩
  else if d.month < 12 then ⟨d.year, d.month + 1, 1⟩
  else ⟨d.year + 1, 1, 1⟩

/-- Day number of a date (days since 1970-01-01, the standard
days-from-civil computation). Python's date comparison and
`(d2 - d1).days` agree with `Int` comparison and subtraction of
day numbers. -/
def Date.toDays (dt : Date) : Int :=
  let y : Int := if dt.month ≤ 2 then (dt.year : Int) - 1 else (dt.year : Int)
  let era : Int := (if 0 ≤ y then y else y - 399) / 400
  let yoe : Int := y - era * 400
  let mp : Int := ((dt.month : Int) + 9) % 12
  let doy : Int := (153 * mp + 2) / 5 + (dt.day : Int) - 1
  let doe : Int := yoe * 365 + yoe / 4 - yoe / 100 + doy
  era * 146097 + doe - 719468

/-- The ASCII digit character for `n % 10`. -/
def digitChar (n : Nat) : Char :=
  Char.ofNat (48 + n % 10)

/-- Two-digit zero-padded decimal rendering (month, day fields of
`date.isoformat()`). -/
def pad2 (n : Nat) : String :=
  String.mk [digitChar (n / 10), digitChar n]

/-- Four-digit zero-padded decimal rendering (year field of
`date.isoformat()`). -/
def pad4 (n : Nat) : String :=
  String.mk [digitChar (n / 1000), digitChar (n / 100), digitChar (n / 10), digitChar n]

/-- `date.isoformat()`: `YYYY-MM-DD`. -/
def Date.toIso (d : Date) : String :=
  pad4 d.year ++ "-" ++ pad2 d.month ++ "-" ++ pad2 d.day

/-- The `Listing` model (models.py), restricted to the fields the claims
touch. `host` is the host's user id; `price_per_night` is the decimal
price; `is_available` is the availability flag consulted by the
`listing_id` field's queryset in serializers.py. -/
structure Listing where
  id : Nat
  host : Nat
  price_per_night : Rat
  max_guests : Int
  is_available : Bool
deriving DecidableEq, Repr

/-- The `Booking` model (models.py), restricted to the fields the claims
touch. `check_in`/`check_out` are day numbers (`Date.toDays`). -/
structure Booking where
  id : Nat
  listing : Nat
  guest : Nat
  check_in : Int
  check_out : Int
  number_of_guests : Int
  total_price : Rat
  status : BStatus
deriving DecidableEq, Repr

/-- The writable payload of `BookingSerializer`: every non-read-only field
of `Meta.fields`. `total_price` appears in `Meta.fields` but is listed in
`Meta.read_only_fields = ['total_price', 'created_at', 'updated_at']`, so a
client-submitted value is carried here only to be dropped by
deserialization (`toInternal`). `status` is writable and optional (the
model field has a default). -/
structure RawBooking where
  listing_id : Nat
  guest_id : Nat
  check_in : Int
  check_out : Int
  number_of_guests : Int
  total_price : Option Rat
  status : Option BStatus
deriving DecidableEq, Repr

/-- The deserialized internal value handed to `BookingSerializer.validate`:
the raw payload minus the read-only fields, so the submitted `total_price`
is discarded here. -/
structure InternalBooking where
  listing_id : Nat
  guest_id : Nat
  check_in : Int
  check_out : Int
  number_of_guests : Int
  status : Option BStatus
deriving DecidableEq, Repr

/-- Deserialization of the writable fields: `total_price` is in
`read_only_fields`, so it is not carried into the internal value. -/
def toInternal (r : RawBooking) : InternalBooking :=
  { listing_id := r.listing_id
    guest_id := r.guest_id
    check_in := r.check_in
    check_out := r.check_out
    number_of_guests := r.number_of_guests
    status := r.status }

/-- The validated record produced by `BookingSerializer.validate`: the
internal value with `total_price` injected
(`data['total_price'] = days * listing.price_per_night`). -/
structure ValidatedBooking where
  listing_id : Nat
  guest_id : Nat
  check_in : Int
  check_out : Int
  number_of_guests : Int
  status : Option BStatus
  total_price : Rat
deriving DecidableEq, Repr

/-- Membership test of the conflict queryset of
`BookingSerializer.validate`:
`Booking.objects.filter(listing=listing, check_out__gt=data['check_in'],
check_in__lt=data['check_out'], status__in=['pending', 'confirmed'])`. -/
def conflictPred (listingId : Nat) (ci co : Int) (b : Booking) : Bool :=
  b.listing == listingId && decide (ci < b.check_out) &&
    decide (b.check_in < co) &&
    (b.status == .pending || b.status == .confirmed)

/-- `.exclude(id=self.instance.id if self.instance else None)`: with an
instance (update) the instance's own id is excluded, without one (create)
`id=None` matches no row and nothing is excluded. -/
def excludePred (instanceId : Option Nat) (b : Booking) : Bool :=
  match instanceId with
  | some i => !(b.id == i)
  | none => true

/-- The conflict queryset of `BookingSerializer.validate` over the booking
table `bookings`. -/
def conflictingBookings (bookings : List Booking) (listingId : Nat)
    (ci co : Int) (instanceId : Option Nat) : List Booking :=
  (bookings.filter (conflictPred listingId ci co)).filter (excludePred instanceId)

/-- `BookingSerializer.validate(self, data)` (serializers.py lines 58-89).
`bookings` is the booking table, `listing` the resolved `data['listing']`,
`instanceId` is `self.instance.id` on update and `none` on create. -/
def validate (bookings : List Booking) (listing : Listing)
    (instanceId : Option Nat) (data : InternalBooking) :
    Except String ValidatedBooking :=
  if data.check_out ≤ data.check_in then
    .error "Check-in date must be before check-out date."
  else if listing.max_guests < data.number_of_guests then
    .error ("Number of guests cannot exceed " ++ toString listing.max_guests ++ ".")
  else if conflictingBookings bookings listing.id data.check_in data.check_out instanceId ≠ [] then
    .error "This listing is already booked for the selected dates."
  else
    .ok { listing_id := data.listing_id
          guest_id := data.guest_id
          check_in := data.check_in
          check_out := data.check_out
          number_of_guests := data.number_of_guests
          status := data.status
          total_price := ((data.check_out - data.check_in : Int) : Rat) * listing.price_per_night }

/-- Result of a DRF action body: `ok` is a 200 `Response` carrying the
saved booking, `clientError` a 400 response with its error message,
`forbidden` a 403 response with its error message. -/
inductive ActionResult where
  | ok (b : Booking)
  | clientError (msg : String)
  | forbidden (msg : String)
deriving DecidableEq, Repr

/-- `BookingViewSet.cancel` body (views.py lines 126-148): `booking` is the
retrieved object, `listingHost` is `booking.listing.host`, `caller` is
`request.user`. -/
def cancelAction (booking : Booking) (listingHost : Nat) (caller : Nat) : ActionResult :=
  if booking.status = .cancelled then
    .clientError "Booking is already cancelled"
  else if ¬(caller = booking.guest ∨ caller = listingHost) then
    .forbidden "You do not have permission to cancel this booking"
  else
    .ok { booking with status := .cancelled }

/-- `BookingViewSet.confirm` body (views.py lines 150-172). -/
def confirmAction (booking : Booking) (listingHost : Nat) (caller : Nat) : ActionResult :=
  if booking.status ≠ .pending then
    .clientError ("Booking is already " ++ booking.status.toStr)
  else if caller ≠ listingHost then
    .forbidden "Only the host can confirm bookings"
  else
    .ok { booking with status := .confirmed }

/-- `serializer.save(**kwargs)` on create: DRF merges `kwargs` over the
validated data (`guest=self.request.user` in
`BookingViewSet.perform_create` overrides the deserialized `guest_id`),
the database assigns the fresh primary key `id`, and the model default
`status='pending'` applies when the payload supplied no status. -/
def saveNewBooking (id : Nat) (v : ValidatedBooking) (guestOverride : Option Nat) : Booking :=
  { id := id
    listing := v.listing_id
    guest := guestOverride.getD v.guest_id
    check_in := v.check_in
    check_out := v.check_out
    number_of_guests := v.number_of_guests
    total_price := v.total_price
    status := v.status.getD .pending }

/-- `serializer.save()` on update: every validated field is written onto
the existing instance; `id` is kept, and `status`, being optional in the
payload, keeps its old value when absent. -/
def saveUpdatedBooking (old : Booking) (v : ValidatedBooking) : Booking :=
  { id := old.id
    listing := v.listing_id
    guest := v.guest_id
    check_in := v.check_in
    check_out := v.check_out
    number_of_guests := v.number_of_guests
    total_price := v.total_price
    status := v.status.getD old.status }

/-- The persistent state the booking endpoints read and write: the listing
table, the booking table, and the next primary key the database will
assign to a booking. -/
structure State where
  listings : List Listing
  bookings : List Booking
  nextBookingId : Nat
deriving DecidableEq, Repr

/-- The empty database. -/
def initState : State :=
  { listings := [], bookings := [], nextBookingId := 0 }

/-- Resolution of the writable `listing_id` field of `BookingSerializer`:
its queryset is `Listing.objects.filter(is_available=True)`, so the id
must name an existing, available listing. -/
def resolveListing (listings : List Listing) (lid : Nat) : Option Listing :=
  listings.find? (fun l => l.id == lid && l.is_available)

/-- `POST /bookings/`: deserialize (dropping read-only fields), resolve
`listing_id` against available listings, run
`BookingSerializer.validate`, then `perform_create` saves with
`guest=request.user`. -/
def createBooking (st : State) (caller : Nat) (raw : RawBooking) :
    Except String State :=
  match resolveListing st.listings raw.listing_id with
  | none => .error "Invalid pk - object does not exist."
  | some listing =>
    match validate st.bookings listing none (toInternal raw) with
    | .error e => .error e
    | .ok v =>
      .ok { st with
              bookings := st.bookings ++ [saveNewBooking st.nextBookingId v (some caller)]
              nextBookingId := st.nextBookingId + 1 }

/-- `PUT /bookings/{id}/`: retrieve the instance (the scoped queryset and
`IsBookingOwnerOrHost` both admit exactly the booking's guest and the
listing's host for a non-staff caller), deserialize, resolve
`listing_id`, run `BookingSerializer.validate` with
`self.instance = old`, then save onto the instance. -/
def updateBooking (st : State) (caller : Nat) (bid : Nat) (raw : RawBooking) :
    Except String State :=
  match st.bookings.find? (fun b => b.id == bid) with
  | none => .error "Not found."
  | some old =>
    match st.listings.find? (fun l => l.id == old.listing) with
    | none => .error "Not found."
    | some oldListing =>
      if ¬(caller = old.guest ∨ caller = oldListing.host) then
        .error "You do not have permission to perform this action."
      else
        match resolveListing st.listings raw.listing_id with
        | none => .error "Invalid pk - object does not exist."
        | some listing =>
          match validate st.bookings listing (some bid) (toInternal raw) with
          | .error e => .error e
          | .ok v =>
            .ok { st with
                    bookings := st.bookings.map
                      (fun b => if b.id == bid then saveUpdatedBooking old v else b) }

/-- `POST /bookings/{id}/cancel/` at the state level: run the action body
on the retrieved booking and persist `booking.save()` only on its success
path; every failure (missing object, 400, 403) leaves the table
unchanged. -/
def cancelOp (st : State) (caller : Nat) (bid : Nat) : State :=
  match st.bookings.find? (fun b => b.id == bid) with
  | none => st
  | some b =>
    match st.listings.find? (fun l => l.id == b.listing) with
    | none => st
    | some l =>
      match cancelAction b l.host caller with
      | .ok b2 => { st with bookings := st.bookings.map (fun x => if x.id == bid then b2 else x) }
      | _ => st

/-- `POST /bookings/{id}/confirm/` at the state level, as `cancelOp`. -/
def confirmOp (st : State) (caller : Nat) (bid : Nat) : State :=
  match st.bookings.find? (fun b => b.id == bid) with
  | none => st
  | some b =>
    match st.listings.find? (fun l => l.id == b.listing) with
    | none => st
    | some l =>
      match confirmAction b l.host caller with
      | .ok b2 => { st with bookings := st.bookings.map (fun x => if x.id == bid then b2 else x) }
      | _ => st

/-- `DELETE /bookings/{id}/`: the default destroy removes the row. -/
def destroyBooking (st : State) (bid : Nat) : State :=
  { st with bookings := st.bookings.filter (fun b => !(b.id == bid)) }

/-- `DELETE /listings/{id}/`: `on_delete=models.CASCADE` on
`Booking.listing` cascades the delete to the listing's bookings. -/
def destroyListing (st : State) (lid : Nat) : State :=
  { st with
      listings := st.listings.filter (fun l => !(l.id == lid))
      bookings := st.bookings.filter (fun b => !(b.listing == lid)) }

/-- A booking counted by the conflict scan: `status in {pending, confirmed}`. -/
def IsActive (b : Booking) : Prop :=
  b.status = .pending ∨ b.status = .confirmed

/-- The half-open interval overlap of the spec:
`b1.check_out > b2.check_in AND b1.check_in < b2.check_out`. -/
def Overlap (b1 b2 : Booking) : Prop :=
  b2.check_in < b1.check_out ∧ b1.check_in < b2.check_out

/-- The no-double-booking invariant: no two distinct rows on the same
listing, both with status in {pending, confirmed}, have overlapping
[check_in, check_out) intervals. -/
def NoOverlap (l : List Booking) : Prop :=
  ∀ b1 ∈ l, ∀ b2 ∈ l, b1.id ≠ b2.id → b1.listing = b2.listing →
    IsActive b1 → IsActive b2 → ¬ Overlap b1 b2

/-- Bookkeeping invariant: primary keys are below the next key and
pairwise distinct. -/
def IdsWf (st : State) : Prop :=
  (∀ b ∈ st.bookings, b.id < st.nextBookingId) ∧ (st.bookings.map Booking.id).Nodup

/-- The states reachable from the empty database through the booking
endpoints. `listingOp` covers every operation that touches only the
listing table without cascading (create, update, partial update of a
listing). -/
inductive Reachable : State → Prop where
  | init : Reachable initState
  | listingOp (st : State) (ls : List Listing) : Reachable st →
      Reachable { st with listings := ls }
  | createB (st st2 : State) (caller : Nat) (raw : RawBooking) : Reachable st →
      createBooking st caller raw = .ok st2 → Reachable st2
  | updateB (st st2 : State) (caller bid : Nat) (raw : RawBooking) : Reachable st →
      updateBooking st caller bid raw = .ok st2 → Reachable st2
  | confirmB (st : State) (caller bid : Nat) : Reachable st →
      Reachable (confirmOp st caller bid)
  | cancelB (st : State) (caller bid : Nat) : Reachable st →
      Reachable (cancelOp st caller bid)
  | destroyB (st : State) (bid : Nat) : Reachable st →
      Reachable (destroyBooking st bid)
  | destroyL (st : State) (lid : Nat) : Reachable st →
      Reachable (destroyListing st lid)

/-- A booking as `ListingViewSet.available_dates` reads it: its status and
its calendar dates. -/
structure CalBooking where
  status : BStatus
  check_in : Date
  check_out : Date
deriving DecidableEq, Repr

/-- One booking's contribution to `booked_dates`: the
`while current_date < booking.check_out` loop of
`ListingViewSet.available_dates` (views.py lines 77-80), run with fuel
`(check_out - check_in).days`, which bounds the number of iterations. The
loop body references `datetime.timedelta`, a name views.py never imports;
this definition gives the loop the standard meaning of that name. -/
def bookedDatesGo : Nat → Date → Date → List String
  | 0, _, _ => []
  | fuel + 1, cur, stop =>
    if cur.toDays < stop.toDays then cur.toIso :: bookedDatesGo fuel cur.nextDay stop
    else []

/-- The dates a single booking occupies, check_in inclusive to check_out
exclusive, as ISO strings. -/
def bookedDatesOf (ci co : Date) : List String :=
  bookedDatesGo (co.toDays - ci.toDays).toNat ci co

/-- The `for booking in bookings` accumulation of `booked_dates`. -/
def collectBookedDates : List CalBooking → List String
  | [] => []
  | b :: rest => bookedDatesOf b.check_in b.check_out ++ collectBookedDates rest

/-- `ListingViewSet.available_dates` body (views.py lines 62-86): filter
the listing's bookings to `status__in=['confirmed', 'pending']` and
enumerate each one's occupied dates. -/
def availableDatesBody (bookings : List CalBooking) : List String :=
  collectBookedDates
    (bookings.filter (fun b => b.status == .confirmed || b.status == .pending))

/-- `listing__host` join: the host of the booking's listing, if the
listing row exists. -/
def hostOfListing (listings : List Listing) (lid : Nat) : Option Nat :=
  (listings.find? (fun l => l.id == lid)).map Listing.host

/-- Row test of the `upcoming` queryset (views.py lines 181-185):
`Q(guest=user) | Q(listing__host=user), check_out__gte=today,
status__in=['confirmed', 'pending']`. -/
def upcomingPred (listings : List Listing) (user : Nat) (today : Int)
    (b : Booking) : Bool :=
  (b.guest == user || hostOfListing listings b.listing == some user) &&
    decide (today ≤ b.check_out) &&
    (b.status == .confirmed || b.status == .pending)

/-- `order_by('check_in')`: ascending order of `check_in`. -/
def byCheckIn (b1 b2 : Booking) : Prop :=
  b1.check_in ≤ b2.check_in

instance : DecidableRel byCheckIn :=
  fun a b => inferInstanceAs (Decidable (a.check_in ≤ b.check_in))

instance : IsTotal Booking byCheckIn :=
  ⟨fun a b => le_total a.check_in b.check_in⟩

instance : IsTrans Booking byCheckIn :=
  ⟨fun _ _ _ h1 h2 => le_trans h1 h2⟩

/-- `BookingViewSet.upcoming` queryset (views.py lines 174-193): filter
the booking table and sort by `check_in` ascending. `today` stands for
`timezone.now().date()`; views.py references `timezone` without importing
it, and this definition gives that expression its standard meaning as a
parameter. -/
def upcomingBookings (st : State) (user : Nat) (today : Int) : List Booking :=
  List.insertionSort byCheckIn (st.bookings.filter (upcomingPred st.listings user today))

/-- The writable payload of `ListingSerializer`: `host_id` is writable
(`source='host'`), overridden on create by
`ListingViewSet.perform_create`'s `serializer.save(host=self.request.user)`. -/
structure RawListing where
  host_id : Nat
  price_per_night : Rat
  max_guests : Int
  is_available : Bool
deriving DecidableEq, Repr

/-- `POST /listings/`: `serializer.save(host=self.request.user)` merges
the `host` override over the deserialized data (views.py lines 50-52). -/
def saveNewListing (id : Nat) (raw : RawListing) (hostOverride : Option Nat) : Listing :=
  { id := id
    host := hostOverride.getD raw.host_id
    price_per_night := raw.price_per_night
    max_guests := raw.max_guests
    is_available := raw.is_available }

/-- `ListingViewSet.perform_create` (views.py lines 50-52). -/
def performCreateListing (id : Nat) (caller : Nat) (raw : RawListing) : Listing :=
  saveNewListing id raw (some caller)

/-- A concrete available listing (id 1, host 10, price 100, max 2 guests). -/
def WListing : Listing :=
  { id := 1, host := 10, price_per_night := 100, max_guests := 2, is_available := true }

/-- A concrete state holding only `WListing`. -/
def WstA : State :=
  { listings := [WListing], bookings := [], nextBookingId := 0 }

/-- A concrete booking payload for `WListing` over days [0, 5), with a
client-submitted `total_price` of 1. -/
def WrawBooking : RawBooking :=
  { listing_id := 1, guest_id := 20, check_in := 0, check_out := 5,
    number_of_guests := 1, total_price := some 1, status := none }

/-- The state `POST /bookings/` by user 20 with payload `WrawBooking`
produces from `WstA`. -/
def WstB : State :=
  match createBooking WstA 20 WrawBooking with
  | .ok s => s
  | .error _ => initState

/-- The state `POST /bookings/` by user 20 produces from `WstA` when the
payload names user 99 as `guest_id`. -/
def WstB10 : State :=
  match createBooking WstA 20 { WrawBooking with guest_id := 99 } with
  | .ok s => s
  | .error _ => initState

/-- A concrete listing payload naming user 7 as `host_id`. -/
def WrawListing : RawListing :=
  { host_id := 7, price_per_night := 50, max_guests := 4, is_available := true }

/-- A concrete pending booking of listing 1 by guest 2 over days [0, 5). -/
def WBpending : Booking :=
  { id := 0, listing := 1, guest := 2, check_in := 0, check_out := 5,
    number_of_guests := 1, total_price := 500, status := .pending }

/-- `WBpending` with status cancelled. -/
def WBcancelled : Booking :=
  { WBpending with status := .cancelled }

/-- `WBpending` with status completed. -/
def WBcompleted : Booking :=
  { WBpending with status := .completed }

/-- A state holding `WListing` and the cancelled booking. -/
def WstCancelled : State :=
  { listings := [WListing], bookings := [WBcancelled], nextBookingId := 1 }

/-- A state holding `WListing` and the completed booking. -/
def WstCompleted : State :=
  { listings := [WListing], bookings := [WBcompleted], nextBookingId := 1 }

/-- A second back-to-back payload for `WListing` over days [5, 8) by
user 21. -/
def WrawBooking2 : RawBooking :=
  { listing_id := 1, guest_id := 21, check_in := 5, check_out := 8,
    number_of_guests := 1, total_price := none, status := none }

/-- The state `POST /bookings/` by user 21 with payload `WrawBooking2`
produces from `WstB`: two adjacent pending bookings on listing 1. -/
def WstC : State :=
  match createBooking WstB 21 WrawBooking2 with
  | .ok s => s
  | .error _ => initState

/-- The booking stored by the first create (days [0, 5)). -/
def WB0 : Booking :=
  { id := 0, listing := 1, guest := 20, check_in := 0, check_out := 5,
    number_of_guests := 1, total_price := 500, status := .pending }

/-- The booking stored by the second create (days [5, 8)). -/
def WB1 : Booking :=
  { id := 1, listing := 1, guest := 21, check_in := 5, check_out := 8,
    number_of_guests := 1, total_price := 300, status := .pending }

instance decEqExcept {ε α : Type} [DecidableEq ε] [DecidableEq α] :
    DecidableEq (Except ε α) := fun a b =>
  match a, b with
  | .error e1, .error e2 =>
      if h : e1 = e2 then isTrue (h ▸ rfl)
      else isFalse (fun hh => h (Except.error.inj hh))
  | .error _, .ok _ => isFalse (fun hh => Except.noConfusion hh)
  | .ok _, .error _ => isFalse (fun hh => Except.noConfusion hh)
  | .ok a1, .ok a2 =>
      if h : a1 = a2 then isTrue (h ▸ rfl)
      else isFalse (fun hh => h (Except.ok.inj hh))

theorem conflictPred_eq_true {lid : Nat} {ci co : Int} {b : Booking} :
    conflictPred lid ci co b = true ↔
      b.listing = lid ∧ ci < b.check_out ∧ b.check_in < co ∧
        (b.status = .pending ∨ b.status = .confirmed) := by
  simp [conflictPred, and_assoc]

theorem excludePred_eq_true {instId : Option Nat} {b : Booking} :
    excludePred instId b = true ↔ ∀ i, instId = some i → b.id ≠ i := by
  cases instId <;> simp [excludePred]

theorem mem_conflictingBookings {bookings : List Booking} {lid : Nat}
    {ci co : Int} {instId : Option Nat} {b : Booking} :
    b ∈ conflictingBookings bookings lid ci co instId ↔
      b ∈ bookings ∧ conflictPred lid ci co b = true ∧
        excludePred instId b = true := by
  simp only [conflictingBookings, List.mem_filter]
  tauto

theorem conflictingBookings_eq_nil {bookings : List Booking} {lid : Nat}
    {ci co : Int} {instId : Option Nat} :
    conflictingBookings bookings lid ci co instId = [] ↔
      ∀ b ∈ bookings, conflictPred lid ci co b = true →
        excludePred instId b = true → False := by
  rw [List.eq_nil_iff_forall_not_mem]
  constructor
  · intro h b hb hc he
    exact h b (mem_conflictingBookings.mpr ⟨hb, hc, he⟩)
  · intro h b hb
    obtain ⟨hb1, hb2, hb3⟩ := mem_conflictingBookings.mp hb
    exact h b hb1 hb2 hb3

theorem validate_ok_dest {bookings : List Booking} {listing : Listing}
    {instId : Option Nat} {data : InternalBooking} {v : ValidatedBooking}
    (h : validate bookings listing instId data = .ok v) :
    data.check_in < data.check_out ∧
    data.number_of_guests ≤ listing.max_guests ∧
    conflictingBookings bookings listing.id data.check_in data.check_out instId = [] ∧
    v = { listing_id := data.listing_id, guest_id := data.guest_id,
          check_in := data.check_in, check_out := data.check_out,
          number_of_guests := data.number_of_guests, status := data.status,
          total_price := ((data.check_out - data.check_in : Int) : Rat) *
            listing.price_per_night } := by
  unfold validate at h
  split_ifs at h with h1 h2 h3
  exact ⟨not_le.mp h1, not_lt.mp h2, not_ne_iff.mp h3, (Except.ok.inj h).symm⟩

/-- C2: `BookingSerializer.validate` raises a validation error iff
check_in ≥ check_out, or number_of_guests exceeds listing.max_guests, or
some existing booking on the same listing with status pending or
confirmed overlaps the candidate's half-open interval
(`existing.check_out > new.check_in` and
`existing.check_in < new.check_out`), the booking's own prior record
being excluded on update; otherwise validation succeeds. -/
theorem booking_validate_error_iff (bookings : List Booking)
    (listing : Listing) (instanceId : Option Nat) (data : InternalBooking) :
    (∃ e, validate bookings listing instanceId data = .error e) ↔
      (data.check_out ≤ data.check_in ∨
       listing.max_guests < data.number_of_guests ∨
       ∃ b ∈ bookings, (∀ i, instanceId = some i → b.id ≠ i) ∧
         b.listing = listing.id ∧
         (b.status = .pending ∨ b.status = .confirmed) ∧
         data.check_in < b.check_out ∧ b.check_in < data.check_out) := by
  unfold validate
  split_ifs with h1 h2 h3
  · exact iff_of_true ⟨_, rfl⟩ (Or.inl h1)
  · exact iff_of_true ⟨_, rfl⟩ (Or.inr (Or.inl h2))
  · refine iff_of_true ⟨_, rfl⟩ (Or.inr (Or.inr ?_))
    obtain ⟨b, hb⟩ := List.exists_mem_of_ne_nil _ h3
    obtain ⟨hb1, hb2, hb3⟩ := mem_conflictingBookings.mp hb
    rw [conflictPred_eq_true] at hb2
    rw [excludePred_eq_true] at hb3
    exact ⟨b, hb1, hb3, hb2.1, hb2.2.2.2, hb2.2.1, hb2.2.2.1⟩
  · refine iff_of_false ?_ ?_
    · rintro ⟨e, he⟩
      simp at he
    · rintro (h | h | ⟨b, hb, hex, hlist, hstat, hd1, hd2⟩)
      · exact h1 h
      · exact h2 h
      · exact conflictingBookings_eq_nil.mp (not_ne_iff.mp h3) b hb
          (conflictPred_eq_true.mpr ⟨hlist, hd1, hd2, hstat⟩)
          (excludePred_eq_true.mpr hex)

/-- C1: for every booking that passes validation on create or update, the
stored `total_price` equals `(check_out - check_in).days` times the
listing's `price_per_night`, and the client-submitted `total_price` is
dropped by deserialization, so the result never depends on it. -/
theorem booking_total_price_derived (st : State) (caller bid : Nat)
    (raw : RawBooking) (st2 : State) (listing : Listing) :
    (∀ tp, createBooking st caller { raw with total_price := tp } =
        createBooking st caller raw) ∧
    (∀ tp, updateBooking st caller bid { raw with total_price := tp } =
        updateBooking st caller bid raw) ∧
    (resolveListing st.listings raw.listing_id = some listing →
      createBooking st caller raw = .ok st2 →
      raw.check_in < raw.check_out ∧
      ∃ b, st2.bookings = st.bookings ++ [b] ∧
        b.total_price = ((raw.check_out - raw.check_in : Int) : Rat) *
          listing.price_per_night) ∧
    (resolveListing st.listings raw.listing_id = some listing →
      updateBooking st caller bid raw = .ok st2 →
      raw.check_in < raw.check_out ∧
      ∃ b2, st2.bookings = st.bookings.map (fun x => if x.id == bid then b2 else x) ∧
        b2.total_price = ((raw.check_out - raw.check_in : Int) : Rat) *
          listing.price_per_night) := by
  refine ⟨fun tp => rfl, fun tp => rfl, ?_, ?_⟩
  · intro hres hc
    cases hv : validate st.bookings listing none (toInternal raw) with
    | error e =>
      simp only [createBooking, hres, hv] at hc
      exact Except.noConfusion hc
    | ok v =>
      simp only [createBooking, hres, hv] at hc
      obtain ⟨hlt, _, _, hveq⟩ := validate_ok_dest hv
      refine ⟨hlt, saveNewBooking st.nextBookingId v (some caller), ?_, ?_⟩
      · rw [← Except.ok.inj hc]
      · rw [hveq]; rfl
  · intro hres hu
    cases hb : st.bookings.find? (fun b => b.id == bid) with
    | none =>
      simp only [updateBooking, hb] at hu
      exact Except.noConfusion hu
    | some old =>
      cases hl : st.listings.find? (fun l => l.id == old.listing) with
      | none =>
        simp only [updateBooking, hb, hl] at hu
        exact Except.noConfusion hu
      | some oldListing =>
        simp only [updateBooking, hb, hl] at hu
        split_ifs at hu
        cases hv : validate st.bookings listing (some bid) (toInternal raw) with
        | error e =>
          simp only [hres, hv] at hu
          exact Except.noConfusion hu
        | ok v =>
          simp only [hres, hv] at hu
          obtain ⟨hlt, _, _, hveq⟩ := validate_ok_dest hv
          refine ⟨hlt, saveUpdatedBooking old v, ?_, ?_⟩
          · rw [← Except.ok.inj hu]
          · rw [hveq]; rfl

unseal Rat.mul in
/-- C8: against a listing with price_per_night 100 and an existing
confirmed booking over [2024-06-01, 2024-06-05), a candidate over
[2024-06-04, 2024-06-08) is rejected as an overlap, while a back-to-back
candidate over [2024-06-05, 2024-06-08) is accepted with
total_price 300. -/
theorem booking_conflict_pricing_example :
    validate
      [{ id := 0, listing := 1, guest := 20, check_in := Date.toDays ⟨2024, 6, 1⟩,
         check_out := Date.toDays ⟨2024, 6, 5⟩, number_of_guests := 1,
         total_price := 400, status := .confirmed }]
      { id := 1, host := 10, price_per_night := 100, max_guests := 2,
        is_available := true }
      none
      { listing_id := 1, guest_id := 21, check_in := Date.toDays ⟨2024, 6, 4⟩,
        check_out := Date.toDays ⟨2024, 6, 8⟩, number_of_guests := 1,
        status := none } =
      .error "This listing is already booked for the selected dates." ∧
    validate
      [{ id := 0, listing := 1, guest := 20, check_in := Date.toDays ⟨2024, 6, 1⟩,
         check_out := Date.toDays ⟨2024, 6, 5⟩, number_of_guests := 1,
         total_price := 400, status := .confirmed }]
      { id := 1, host := 10, price_per_night := 100, max_guests := 2,
        is_available := true }
      none
      { listing_id := 1, guest_id := 21, check_in := Date.toDays ⟨2024, 6, 5⟩,
        check_out := Date.toDays ⟨2024, 6, 8⟩, number_of_guests := 1,
        status := none } =
      .ok { listing_id := 1, guest_id := 21, check_in := Date.toDays ⟨2024, 6, 5⟩,
            check_out := Date.toDays ⟨2024, 6, 8⟩, number_of_guests := 1,
            status := none, total_price := 300 } := by
  constructor <;> decide

unseal Rat.mul in
theorem booking_total_price_derived_witness :
    WrawBooking.check_in < WrawBooking.check_out ∧
    ∃ b, WstB.bookings = WstA.bookings ++ [b] ∧
      b.total_price = ((WrawBooking.check_out - WrawBooking.check_in : Int) : Rat) *
        WListing.price_per_night :=
  (booking_total_price_derived WstA 20 0 WrawBooking WstB WListing).2.2.1 rfl rfl

/-- C4: `confirm` moves a pending booking to confirmed for the listing
host; a non-pending status yields a 400 with message
`Booking is already {status}` (checked first), a pending booking with a
non-host caller yields a 403 `Only the host can confirm bookings`, and
confirming twice as the host yields success then the 400. -/
theorem confirm_transition_spec (b : Booking) (host caller : Nat) :
    (b.status = .pending → caller = host →
      confirmAction b host caller = .ok { b with status := .confirmed }) ∧
    (b.status ≠ .pending →
      confirmAction b host caller =
        .clientError ("Booking is already " ++ b.status.toStr)) ∧
    (b.status = .pending → caller ≠ host →
      confirmAction b host caller =
        .forbidden "Only the host can confirm bookings") ∧
    (b.status = .pending →
      confirmAction b host host = .ok { b with status := .confirmed } ∧
      confirmAction { b with status := .confirmed } host host =
        .clientError "Booking is already confirmed") := by
  refine ⟨?_, ?_, ?_, ?_⟩
  · intro h1 h2
    simp [confirmAction, h1, h2]
  · intro h1
    simp [confirmAction, h1]
  · intro h1 h2
    simp [confirmAction, h1, h2]
  · intro h1
    constructor
    · simp [confirmAction, h1]
    · simp [confirmAction, BStatus.toStr]

/-- C5: `cancel` moves a pending or confirmed booking to cancelled when
the caller is the booking's guest or the listing host; an
already-cancelled booking yields a 400 `Booking is already cancelled`
(checked first) and leaves the state unchanged; a caller who is neither
guest nor host (on a non-cancelled booking) gets a 403. -/
theorem cancel_transition_spec (b : Booking) (host caller : Nat) :
    ((b.status = .pending ∨ b.status = .confirmed) →
      (caller = b.guest ∨ caller = host) →
      cancelAction b host caller = .ok { b with status := .cancelled }) ∧
    (b.status = .cancelled →
      cancelAction b host caller = .clientError "Booking is already cancelled") ∧
    (∀ st bid, b.status = .cancelled →
      st.bookings.find? (fun x => x.id == bid) = some b →
      cancelOp st caller bid = st) ∧
    (b.status ≠ .cancelled → caller ≠ b.guest → caller ≠ host →
      cancelAction b host caller =
        .forbidden "You do not have permission to cancel this booking") := by
  refine ⟨?_, ?_, ?_, ?_⟩
  · intro h1 h2
    have hne : b.status ≠ .cancelled := by
      rcases h1 with h | h <;> simp [h]
    simp [cancelAction, hne, h2]
  · intro h1
    simp [cancelAction, h1]
  · intro st bid h1 hf
    cases hl : st.listings.find? (fun l => l.id == b.listing) with
    | none => simp only [cancelOp, hf, hl]
    | some l =>
      simp only [cancelOp, hf, hl]
      simp [cancelAction, h1]
  · intro h1 h2 h3
    simp [cancelAction, h1, h2, h3]

theorem confirm_transition_spec_witness :
    confirmAction WBpending 10 10 = .ok { WBpending with status := .confirmed } ∧
    confirmAction { WBpending with status := .confirmed } 10 10 =
      .clientError "Booking is already confirmed" ∧
    confirmAction WBpending 10 2 = .forbidden "Only the host can confirm bookings" ∧
    confirmAction WBcancelled 10 10 = .clientError "Booking is already cancelled" :=
  ⟨((confirm_transition_spec WBpending 10 10).2.2.2 rfl).1,
   ((confirm_transition_spec WBpending 10 10).2.2.2 rfl).2,
   (confirm_transition_spec WBpending 10 2).2.2.1 rfl (by decide),
   (confirm_transition_spec WBcancelled 10 10).2.1 (by decide)⟩

theorem cancel_transition_spec_witness :
    cancelAction WBpending 10 2 = .ok { WBpending with status := .cancelled } ∧
    cancelAction WBcancelled 10 2 = .clientError "Booking is already cancelled" ∧
    cancelOp WstCancelled 2 0 = WstCancelled ∧
    cancelAction WBpending 10 7 =
      .forbidden "You do not have permission to cancel this booking" :=
  ⟨(cancel_transition_spec WBpending 10 2).1 (Or.inl rfl) (Or.inl rfl),
   (cancel_transition_spec WBcancelled 10 2).2.1 rfl,
   (cancel_transition_spec WBcancelled 10 2).2.2.1 WstCancelled 0 rfl rfl,
   (cancel_transition_spec WBpending 10 7).2.2.2 (by decide) (by decide) (by decide)⟩

/-- C6 counterexample: a completed booking is not terminal under `cancel`:
the guest's cancel call on a completed booking succeeds and rewrites its
status to cancelled, both at the action level and at the state level. -/
theorem cancel_completed_counterexample :
    WBcompleted.status = .completed ∧
    cancelAction WBcompleted 10 2 = .ok { WBcompleted with status := .cancelled } ∧
    cancelOp WstCompleted 2 0 ≠ WstCompleted := by
  exact ⟨rfl, by decide, by decide⟩

/-- C6 amended: no transition exists out of cancelled (both actions
return a 400 and leave the state unchanged), and `confirm` never changes
a completed booking; `cancel`, however, does move a completed booking to
cancelled when the caller is the guest or the host. -/
theorem no_transition_out_of_cancelled (b : Booking) (host caller : Nat) :
    (b.status = .cancelled →
      cancelAction b host caller = .clientError "Booking is already cancelled" ∧
      confirmAction b host caller = .clientError "Booking is already cancelled") ∧
    (b.status = .completed →
      confirmAction b host caller = .clientError "Booking is already completed") ∧
    (∀ st bid, b.status = .cancelled →
      st.bookings.find? (fun x => x.id == bid) = some b →
      cancelOp st caller bid = st ∧ confirmOp st caller bid = st) ∧
    (∀ st bid, b.status = .completed →
      st.bookings.find? (fun x => x.id == bid) = some b →
      confirmOp st caller bid = st) := by
  refine ⟨?_, ?_, ?_, ?_⟩
  · intro h1
    constructor
    · simp [cancelAction, h1]
    · simp [confirmAction, h1, BStatus.toStr]
  · intro h1
    simp [confirmAction, h1, BStatus.toStr]
  · intro st bid h1 hf
    constructor
    · cases hl : st.listings.find? (fun l => l.id == b.listing) with
      | none => simp only [cancelOp, hf, hl]
      | some l =>
        simp only [cancelOp, hf, hl]
        simp [cancelAction, h1]
    · cases hl : st.listings.find? (fun l => l.id == b.listing) with
      | none => simp only [confirmOp, hf, hl]
      | some l =>
        simp only [confirmOp, hf, hl]
        simp [confirmAction, h1]
  · intro st bid h1 hf
    cases hl : st.listings.find? (fun l => l.id == b.listing) with
    | none => simp only [confirmOp, hf, hl]
    | some l =>
      simp only [confirmOp, hf, hl]
      simp [confirmAction, h1]

theorem no_transition_out_of_cancelled_witness :
    cancelAction WBcancelled 10 2 = .clientError "Booking is already cancelled" ∧
    confirmAction WBcancelled 10 2 = .clientError "Booking is already cancelled" ∧
    confirmAction WBcompleted 10 10 = .clientError "Booking is already completed" ∧
    (cancelOp WstCancelled 2 0 = WstCancelled ∧
      confirmOp WstCancelled 2 0 = WstCancelled) ∧
    confirmOp WstCompleted 10 0 = WstCompleted :=
  ⟨((no_transition_out_of_cancelled WBcancelled 10 2).1 rfl).1,
   ((no_transition_out_of_cancelled WBcancelled 10 2).1 rfl).2,
   (no_transition_out_of_cancelled WBcompleted 10 10).2.1 rfl,
   (no_transition_out_of_cancelled WBcancelled 10 2).2.2.1 WstCancelled 0 rfl rfl,
   (no_transition_out_of_cancelled WBcompleted 10 10).2.2.2 WstCompleted 0 rfl rfl⟩

/-- C7: the `available_dates` enumeration (with the unimported name
`datetime.timedelta` given its standard meaning) applied to a single
confirmed booking [2024-06-01, 2024-06-05) yields exactly the four ISO
dates 2024-06-01 through 2024-06-04, check_out excluded. -/
theorem available_dates_example :
    availableDatesBody
      [{ status := .confirmed, check_in := ⟨2024, 6, 1⟩,
         check_out := ⟨2024, 6, 5⟩ }] =
      ["2024-06-01", "2024-06-02", "2024-06-03", "2024-06-04"] := by
  decide

/-- C9: the `upcoming` queryset (with the unimported name `timezone`
given its standard meaning, `today` standing for
`timezone.now().date()`) holds exactly the bookings whose guest is the
caller or whose listing's host is the caller, with check_out ≥ today and
status pending or confirmed, sorted ascending by check_in. -/
theorem upcoming_queryset_spec (st : State) (user : Nat) (today : Int) :
    (∀ b, b ∈ upcomingBookings st user today ↔
      (b ∈ st.bookings ∧
        (b.guest = user ∨ hostOfListing st.listings b.listing = some user) ∧
        today ≤ b.check_out ∧
        (b.status = .confirmed ∨ b.status = .pending))) ∧
    (upcomingBookings st user today).Sorted byCheckIn := by
  constructor
  · intro b
    rw [upcomingBookings, List.Perm.mem_iff (List.perm_insertionSort byCheckIn _)]
    simp [List.mem_filter, upcomingPred, and_assoc]
  · exact List.sorted_insertionSort byCheckIn _

/-- C10: `perform_create` overrides the deserialized `guest_id` with the
authenticated caller on booking creation, and the deserialized `host_id`
with the authenticated caller on listing creation, whatever ids the
payload supplied. -/
theorem created_booking_guest_is_caller (st : State) (caller : Nat)
    (raw : RawBooking) (rawL : RawListing) (lid : Nat) :
    (∀ g st2, createBooking st caller { raw with guest_id := g } = .ok st2 →
      ∃ b, st2.bookings = st.bookings ++ [b] ∧ b.guest = caller) ∧
    (∀ h, (performCreateListing lid caller { rawL with host_id := h }).host =
      caller) := by
  constructor
  · intro g st2 hc
    cases hr : resolveListing st.listings raw.listing_id with
    | none =>
      simp only [createBooking, hr] at hc
      exact Except.noConfusion hc
    | some listing =>
      cases hv : validate st.bookings listing none
          (toInternal { raw with guest_id := g }) with
      | error e =>
        simp only [createBooking, hr, hv] at hc
        exact Except.noConfusion hc
      | ok v =>
        simp only [createBooking, hr, hv] at hc
        refine ⟨saveNewBooking st.nextBookingId v (some caller), ?_, rfl⟩
        rw [← Except.ok.inj hc]
  · intro h
    rfl

unseal Rat.mul in
theorem created_booking_guest_is_caller_witness :
    (∃ b, WstB10.bookings = WstA.bookings ++ [b] ∧ b.guest = 20) ∧
    (performCreateListing 5 20 { WrawListing with host_id := 77 }).host = 20 :=
  ⟨(created_booking_guest_is_caller WstA 20 WrawBooking WrawListing 5).1 99 WstB10 rfl,
   (created_booking_guest_is_caller WstA 20 WrawBooking WrawListing 5).2 77⟩

theorem Overlap_symm {b1 b2 : Booking} (h : Overlap b1 b2) : Overlap b2 b1 :=
  ⟨h.2, h.1⟩

theorem noOverlap_of_subset {l1 l2 : List Booking}
    (hs : ∀ b ∈ l1, b ∈ l2) (h : NoOverlap l2) : NoOverlap l1 :=
  fun b1 m1 b2 m2 => h b1 (hs b1 m1) b2 (hs b2 m2)

theorem validate_ok_no_conflict {bookings : List Booking} {listing : Listing}
    {instId : Option Nat} {data : InternalBooking} {v : ValidatedBooking}
    (h : validate bookings listing instId data = .ok v) :
    ∀ b ∈ bookings, excludePred instId b = true →
      conflictPred listing.id data.check_in data.check_out b = true → False :=
  fun b hb hex hcp =>
    conflictingBookings_eq_nil.mp (validate_ok_dest h).2.2.1 b hb hcp hex

theorem conflict_of_overlap {lid : Nat} {ci co : Int} {nb b : Booking}
    (hlist : b.listing = nb.listing) (hnb : nb.listing = lid)
    (hci : nb.check_in = ci) (hco : nb.check_out = co)
    (hact : IsActive b) (hov : Overlap b nb) :
    conflictPred lid ci co b = true := by
  apply conflictPred_eq_true.mpr
  refine ⟨by rw [hlist, hnb], ?_, ?_, hact⟩
  · rw [← hci]; exact hov.1
  · rw [← hco]; exact hov.2

theorem resolveListing_id {listings : List Listing} {lid : Nat} {listing : Listing}
    (h : resolveListing listings lid = some listing) : listing.id = lid := by
  unfold resolveListing at h
  have hp := List.find?_some h
  simp [Bool.and_eq_true] at hp
  exact hp.1

theorem createBooking_preserves (st st2 : State) (caller : Nat) (raw : RawBooking)
    (hwf : IdsWf st) (hno : NoOverlap st.bookings)
    (h : createBooking st caller raw = .ok st2) :
    IdsWf st2 ∧ NoOverlap st2.bookings := by
  cases hr : resolveListing st.listings raw.listing_id with
  | none =>
    simp only [createBooking, hr] at h
    exact Except.noConfusion h
  | some listing =>
    cases hv : validate st.bookings listing none (toInternal raw) with
    | error e =>
      simp only [createBooking, hr, hv] at h
      exact Except.noConfusion h
    | ok v =>
      simp only [createBooking, hr, hv] at h
      obtain ⟨hlt, hg, hcnil, hveq⟩ := validate_ok_dest hv
      subst hveq
      have hlid : listing.id = raw.listing_id := resolveListing_id hr
      have hst2 := (Except.ok.inj h).symm
      subst hst2
      constructor
      · constructor
        · intro b hb
          rcases List.mem_append.mp hb with hb | hb
          · exact Nat.lt_succ_of_lt (hwf.1 b hb)
          · rw [List.mem_singleton.mp hb]
            exact Nat.lt_succ_self _
        · rw [List.map_append]
          refine List.Nodup.append hwf.2 (List.nodup_singleton _) ?_
          intro a ha ha2
          rcases List.mem_map.mp ha with ⟨b, hb, rfl⟩
          have hlt2 := hwf.1 b hb
          have : b.id = st.nextBookingId := by simpa [saveNewBooking] using ha2
          omega
      · intro b1 m1 b2 m2 hid hlis hact1 hact2 hov
        rcases List.mem_append.mp m1 with m1 | m1 <;>
          rcases List.mem_append.mp m2 with m2 | m2
        · exact hno b1 m1 b2 m2 hid hlis hact1 hact2 hov
        · rw [List.mem_singleton.mp m2] at hlis hov
          exact validate_ok_no_conflict hv b1 m1 rfl
            (conflict_of_overlap hlis hlid.symm rfl rfl hact1 hov)
        · rw [List.mem_singleton.mp m1] at hlis hov
          exact validate_ok_no_conflict hv b2 m2 rfl
            (conflict_of_overlap hlis.symm hlid.symm rfl rfl hact2 (Overlap_symm hov))
        · rw [List.mem_singleton.mp m1, List.mem_singleton.mp m2] at hid
          exact hid rfl

theorem updateBooking_preserves (st st2 : State) (caller bid : Nat) (raw : RawBooking)
    (hwf : IdsWf st) (hno : NoOverlap st.bookings)
    (h : updateBooking st caller bid raw = .ok st2) :
    IdsWf st2 ∧ NoOverlap st2.bookings := by
  cases hb : st.bookings.find? (fun b => b.id == bid) with
  | none =>
    simp only [updateBooking, hb] at h
    exact Except.noConfusion h
  | some old =>
    cases hl : st.listings.find? (fun l => l.id == old.listing) with
    | none =>
      simp only [updateBooking, hb, hl] at h
      exact Except.noConfusion h
    | some oldListing =>
      simp only [updateBooking, hb, hl] at h
      split_ifs at h with hperm
      cases hr : resolveListing st.listings raw.listing_id with
      | none =>
        simp only [hr] at h
        exact Except.noConfusion h
      | some listing =>
        cases hv : validate st.bookings listing (some bid) (toInternal raw) with
        | error e =>
          simp only [hr, hv] at h
          exact Except.noConfusion h
        | ok v =>
          simp only [hr, hv] at h
          obtain ⟨hlt, hg, hcnil, hveq⟩ := validate_ok_dest hv
          have hlid : listing.id = raw.listing_id := resolveListing_id hr
          have holdid : old.id = bid := by simpa using List.find?_some hb
          have hnbid : (saveUpdatedBooking old v).id = old.id := rfl
          have hnblist : (saveUpdatedBooking old v).listing = raw.listing_id := by
            rw [hveq]; rfl
          have hnbci : (saveUpdatedBooking old v).check_in = raw.check_in := by
            rw [hveq]; rfl
          have hnbco : (saveUpdatedBooking old v).check_out = raw.check_out := by
            rw [hveq]; rfl
          have hst2 := (Except.ok.inj h).symm
          subst hst2
          refine ⟨⟨?_, ?_⟩, ?_⟩
          · intro b hbm
            rcases List.mem_map.mp hbm with ⟨a, ha, hfa⟩
            by_cases hc : (a.id == bid) = true
            · rw [if_pos hc] at hfa
              rw [← hfa]
              exact hwf.1 old (List.mem_of_find?_eq_some hb)
            · rw [if_neg hc] at hfa
              rw [← hfa]
              exact hwf.1 a ha
          · have hmapid :
                (st.bookings.map
                  (fun b => if b.id == bid then saveUpdatedBooking old v else b)).map
                    Booking.id = st.bookings.map Booking.id := by
              rw [List.map_map]
              apply List.map_congr_left
              intro a ha
              by_cases hc : (a.id == bid) = true
              · have haid : a.id = bid := by simpa using hc
                simp only [Function.comp_apply, if_pos hc]
                rw [hnbid, holdid, haid]
              · simp only [Function.comp_apply, if_neg hc]
            rw [hmapid]
            exact hwf.2
          · intro b1 m1 b2 m2 hid hlis hact1 hact2 hov
            obtain ⟨a1, ha1, hfa1⟩ := List.mem_map.mp m1
            obtain ⟨a2, ha2, hfa2⟩ := List.mem_map.mp m2
            by_cases hc1 : (a1.id == bid) = true <;>
              by_cases hc2 : (a2.id == bid) = true
            · rw [if_pos hc1] at hfa1
              rw [if_pos hc2] at hfa2
              rw [← hfa1, ← hfa2] at hid
              exact hid rfl
            · rw [if_pos hc1] at hfa1
              rw [if_neg hc2] at hfa2
              subst hfa1
              subst hfa2
              refine validate_ok_no_conflict hv a2 ha2 ?_ ?_
              · simp [excludePred, hc2]
              · exact conflict_of_overlap hlis.symm (hnblist.trans hlid.symm)
                  hnbci hnbco hact2 (Overlap_symm hov)
            · rw [if_neg hc1] at hfa1
              rw [if_pos hc2] at hfa2
              subst hfa1
              subst hfa2
              refine validate_ok_no_conflict hv a1 ha1 ?_ ?_
              · simp [excludePred, hc1]
              · exact conflict_of_overlap hlis (hnblist.trans hlid.symm)
                  hnbci hnbco hact1 hov
            · rw [if_neg hc1] at hfa1
              rw [if_neg hc2] at hfa2
              subst hfa1
              subst hfa2
              exact hno a1 ha1 a2 ha2 hid hlis hact1 hact2 hov

theorem confirmAction_ok {b : Booking} {host caller : Nat} {b2 : Booking}
    (h : confirmAction b host caller = .ok b2) :
    b.status = .pending ∧ caller = host ∧ b2 = { b with status := .confirmed } := by
  unfold confirmAction at h
  split_ifs at h with h1 h2
  exact ⟨not_not.mp h1, not_not.mp h2, (ActionResult.ok.inj h).symm⟩

theorem cancelAction_ok {b : Booking} {host caller : Nat} {b2 : Booking}
    (h : cancelAction b host caller = .ok b2) :
    b.status ≠ .cancelled ∧ (caller = b.guest ∨ caller = host) ∧
      b2 = { b with status := .cancelled } := by
  unfold cancelAction at h
  split_ifs at h with h1 h2
  exact ⟨h1, h2, (ActionResult.ok.inj h).symm⟩

theorem replace_status_preserves (st : State) (bid : Nat) (b : Booking) (s : BStatus)
    (hf : st.bookings.find? (fun x => x.id == bid) = some b)
    (hwf : IdsWf st) (hno : NoOverlap st.bookings)
    (hact : IsActive { b with status := s } → IsActive b) :
    IdsWf { st with bookings :=
        st.bookings.map (fun x => if x.id == bid then { b with status := s } else x) } ∧
    NoOverlap
      (st.bookings.map (fun x => if x.id == bid then { b with status := s } else x)) := by
  have hbid : b.id = bid := by simpa using List.find?_some hf
  have hbm : b ∈ st.bookings := List.mem_of_find?_eq_some hf
  refine ⟨⟨?_, ?_⟩, ?_⟩
  · intro x hx
    rcases List.mem_map.mp hx with ⟨a, ha, hfa⟩
    by_cases hc : (a.id == bid) = true
    · rw [if_pos hc] at hfa
      rw [← hfa]
      exact hwf.1 b hbm
    · rw [if_neg hc] at hfa
      rw [← hfa]
      exact hwf.1 a ha
  · have hmapid :
        (st.bookings.map (fun x => if x.id == bid then { b with status := s } else x)).map
          Booking.id = st.bookings.map Booking.id := by
      rw [List.map_map]
      apply List.map_congr_left
      intro a ha
      by_cases hc : (a.id == bid) = true
      · have haid : a.id = bid := by simpa using hc
        simp only [Function.comp_apply, if_pos hc]
        rw [show ({ b with status := s } : Booking).id = b.id from rfl, hbid, haid]
      · simp only [Function.comp_apply, if_neg hc]
    rw [hmapid]
    exact hwf.2
  · intro b1 m1 b2 m2 hid hlis hact1 hact2 hov
    obtain ⟨a1, ha1, hfa1⟩ := List.mem_map.mp m1
    obtain ⟨a2, ha2, hfa2⟩ := List.mem_map.mp m2
    by_cases hc1 : (a1.id == bid) = true <;> by_cases hc2 : (a2.id == bid) = true
    · rw [if_pos hc1] at hfa1
      rw [if_pos hc2] at hfa2
      rw [← hfa1, ← hfa2] at hid
      exact hid rfl
    · rw [if_pos hc1] at hfa1
      rw [if_neg hc2] at hfa2
      subst hfa1
      subst hfa2
      have ha2id : a2.id ≠ bid := by simpa using hc2
      refine hno b hbm a2 ha2 ?_ hlis (hact hact1) hact2 hov
      rw [hbid]
      exact fun hh => ha2id hh.symm
    · rw [if_neg hc1] at hfa1
      rw [if_pos hc2] at hfa2
      subst hfa1
      subst hfa2
      have ha1id : a1.id ≠ bid := by simpa using hc1
      refine hno a1 ha1 b hbm ?_ hlis hact1 (hact hact2) hov
      rw [hbid]
      exact ha1id
    · rw [if_neg hc1] at hfa1
      rw [if_neg hc2] at hfa2
      subst hfa1
      subst hfa2
      exact hno a1 ha1 a2 ha2 hid hlis hact1 hact2 hov

theorem confirmOp_preserves (st : State) (caller bid : Nat)
    (hwf : IdsWf st) (hno : NoOverlap st.bookings) :
    IdsWf (confirmOp st caller bid) ∧ NoOverlap (confirmOp st caller bid).bookings := by
  cases hf : st.bookings.find? (fun b => b.id == bid) with
  | none =>
    have heq : confirmOp st caller bid = st := by simp only [confirmOp, hf]
    rw [heq]
    exact ⟨hwf, hno⟩
  | some b =>
    cases hl : st.listings.find? (fun l => l.id == b.listing) with
    | none =>
      have heq : confirmOp st caller bid = st := by simp only [confirmOp, hf, hl]
      rw [heq]
      exact ⟨hwf, hno⟩
    | some l =>
      cases hca : confirmAction b l.host caller with
      | ok b2 =>
        have heq :
            confirmOp st caller bid =
              { st with bookings := st.bookings.map (fun x => if x.id == bid then b2 else x) } := by
          simp only [confirmOp, hf, hl, hca]
        rw [heq]
        obtain ⟨hpend, -, hb2⟩ := confirmAction_ok hca
        subst hb2
        exact replace_status_preserves st bid b .confirmed hf hwf hno
          (fun _ => Or.inl hpend)
      | clientError m =>
        have heq : confirmOp st caller bid = st := by
          simp only [confirmOp, hf, hl, hca]
        rw [heq]
        exact ⟨hwf, hno⟩
      | forbidden m =>
        have heq : confirmOp st caller bid = st := by
          simp only [confirmOp, hf, hl, hca]
        rw [heq]
        exact ⟨hwf, hno⟩

theorem cancelOp_preserves (st : State) (caller bid : Nat)
    (hwf : IdsWf st) (hno : NoOverlap st.bookings) :
    IdsWf (cancelOp st caller bid) ∧ NoOverlap (cancelOp st caller bid).bookings := by
  cases hf : st.bookings.find? (fun b => b.id == bid) with
  | none =>
    have heq : cancelOp st caller bid = st := by simp only [cancelOp, hf]
    rw [heq]
    exact ⟨hwf, hno⟩
  | some b =>
    cases hl : st.listings.find? (fun l => l.id == b.listing) with
    | none =>
      have heq : cancelOp st caller bid = st := by simp only [cancelOp, hf, hl]
      rw [heq]
      exact ⟨hwf, hno⟩
    | some l =>
      cases hca : cancelAction b l.host caller with
      | ok b2 =>
        have heq :
            cancelOp st caller bid =
              { st with bookings := st.bookings.map (fun x => if x.id == bid then b2 else x) } := by
          simp only [cancelOp, hf, hl, hca]
        rw [heq]
        obtain ⟨-, -, hb2⟩ := cancelAction_ok hca
        subst hb2
        refine replace_status_preserves st bid b .cancelled hf hwf hno ?_
        intro hctr
        rcases hctr with hh | hh <;> exact BStatus.noConfusion hh
      | clientError m =>
        have heq : cancelOp st caller bid = st := by
          simp only [cancelOp, hf, hl, hca]
        rw [heq]
        exact ⟨hwf, hno⟩
      | forbidden m =>
        have heq : cancelOp st caller bid = st := by
          simp only [cancelOp, hf, hl, hca]
        rw [heq]
        exact ⟨hwf, hno⟩

theorem destroyBooking_preserves (st : State) (bid : Nat)
    (hwf : IdsWf st) (hno : NoOverlap st.bookings) :
    IdsWf (destroyBooking st bid) ∧ NoOverlap (destroyBooking st bid).bookings := by
  refine ⟨⟨?_, ?_⟩, ?_⟩
  · intro b hb
    exact hwf.1 b (List.mem_of_mem_filter hb)
  · exact List.Nodup.sublist (List.Sublist.map _ (List.filter_sublist _)) hwf.2
  · exact noOverlap_of_subset (fun b hb => List.mem_of_mem_filter hb) hno

theorem destroyListing_preserves (st : State) (lid : Nat)
    (hwf : IdsWf st) (hno : NoOverlap st.bookings) :
    IdsWf (destroyListing st lid) ∧ NoOverlap (destroyListing st lid).bookings := by
  refine ⟨⟨?_, ?_⟩, ?_⟩
  · intro b hb
    exact hwf.1 b (List.mem_of_mem_filter hb)
  · exact List.Nodup.sublist (List.Sublist.map _ (List.filter_sublist _)) hwf.2
  · exact noOverlap_of_subset (fun b hb => List.mem_of_mem_filter hb) hno

theorem reachable_inv (st : State) (h : Reachable st) :
    IdsWf st ∧ NoOverlap st.bookings := by
  induction h with
  | init =>
    exact ⟨⟨fun b hb => absurd hb (List.not_mem_nil b), List.nodup_nil⟩,
      fun b1 m1 => absurd m1 (List.not_mem_nil b1)⟩
  | listingOp st ls hr ih => exact ih
  | createB st st2 caller raw hr heq ih =>
    exact createBooking_preserves st st2 caller raw ih.1 ih.2 heq
  | updateB st st2 caller bid raw hr heq ih =>
    exact updateBooking_preserves st st2 caller bid raw ih.1 ih.2 heq
  | confirmB st caller bid hr ih =>
    exact confirmOp_preserves st caller bid ih.1 ih.2
  | cancelB st caller bid hr ih =>
    exact cancelOp_preserves st caller bid ih.1 ih.2
  | destroyB st bid hr ih =>
    exact destroyBooking_preserves st bid ih.1 ih.2
  | destroyL st lid hr ih =>
    exact destroyListing_preserves st lid ih.1 ih.2

/-- C3: in every state reachable from the empty database through the
booking endpoints (create, update, confirm, cancel, destroy, and listing
operations), no two distinct bookings on the same listing that both have
status pending or confirmed overlap as half-open intervals. -/
theorem reachable_states_no_overlap (st : State) (h : Reachable st) :
    ∀ b1 ∈ st.bookings, ∀ b2 ∈ st.bookings, b1.id ≠ b2.id →
      b1.listing = b2.listing →
      (b1.status = .pending ∨ b1.status = .confirmed) →
      (b2.status = .pending ∨ b2.status = .confirmed) →
      ¬(b2.check_in < b1.check_out ∧ b1.check_in < b2.check_out) :=
  (reachable_inv st h).2

unseal Rat.mul in
theorem reachable_states_no_overlap_witness :
    ¬(WB1.check_in < WB0.check_out ∧ WB0.check_in < WB1.check_out) :=
  reachable_states_no_overlap WstC
    (Reachable.createB WstB WstC 21 WrawBooking2
      (Reachable.createB WstA WstB 20 WrawBooking
        (Reachable.listingOp initState [WListing] Reachable.init) rfl) rfl)
    WB0 (by decide) WB1 (by decide) (by decide) rfl (Or.inl rfl) (Or.inl rfl)
